import Mathlib

/-!
Verification of the paper-processing pipeline orchestrator
(`tools/pipeline_models.py`, `tools/paper_processing_service.py`,
`utils/llm_client.py`) against its natural-language specification.

The Python code is shallowly embedded: pure data classes become Lean
structures, the orchestrator `process_paper` becomes a pure function over
an explicit `World` that supplies everything the environment decides
(initial file system, outcome of each external collaborator call, clock
readings, and an optional injected non-stage exception).  Python `float`
arithmetic on the stage-weight constants is modelled with `ℚ`; Python
string comparison (code-point lexicographic) is modelled by `pyStrLt`.
File systems are modelled by the list of existing paths; checkpoint
detection only ever asks for existence, mirroring the source.
-/

namespace Pipeline

/-- The five pipeline stages, from `ProcessingStage` in `pipeline_models.py`. -/
inductive ProcessingStage
  | metadataExtraction
  | fullOcr
  | structureParsing
  | reportGeneration
  | postProcessing
deriving DecidableEq, Repr

/-- The Python enum's string `value` of each stage. -/
def ProcessingStage.value : ProcessingStage → String
  | .metadataExtraction => "metadata_extraction"
  | .fullOcr => "full_ocr"
  | .structureParsing => "structure_parsing"
  | .reportGeneration => "report_generation"
  | .postProcessing => "post_processing"

/-- Stage statuses, from `ProcessingStatus` in `pipeline_models.py`. -/
inductive ProcessingStatus
  | notStarted
  | inProgress
  | completed
  | failed
  | skipped
deriving DecidableEq, Repr

/-- The fixed pipeline order (insertion order of the `stage_weights` dict). -/
def allStages : List ProcessingStage :=
  [.metadataExtraction, .fullOcr, .structureParsing, .reportGeneration, .postProcessing]

/-- Position of a stage in the fixed pipeline order. -/
def stageIndex : ProcessingStage → ℕ
  | .metadataExtraction => 0
  | .fullOcr => 1
  | .structureParsing => 2
  | .reportGeneration => 3
  | .postProcessing => 4

/-- The hard-coded stage weights of `PaperProcessingService.stage_weights`. -/
def stageWeights : ProcessingStage → ℚ
  | .metadataExtraction => 0.15
  | .fullOcr => 0.30
  | .structureParsing => 0.25
  | .reportGeneration => 0.25
  | .postProcessing => 0.05

/-- Code-point lexicographic order on character lists, as Python compares `str`. -/
def charListLt : List Char → List Char → Bool
  | [], [] => false
  | [], _ :: _ => true
  | _ :: _, [] => false
  | a :: as, b :: bs => a < b || (a == b && charListLt as bs)

/-- Python string comparison `a < b`. -/
def pyStrLt (a b : String) : Bool := charListLt a.data b.data

/-- The overall-progress computation of `_notify_progress`: iterate over the
`stage_weights` dict, add the full weight of every stage whose enum string
value compares `<` (Python string order) to the current stage's value, add
`weight * stage_progress` for the current stage, and cap at 1.0. -/
def overallProgress (stage : ProcessingStage) (stageProgress : ℚ) : ℚ :=
  let raw := (allStages.map (fun s =>
    if pyStrLt s.value stage.value then stageWeights s
    else if s = stage then stageWeights s * stageProgress
    else 0)).sum
  min raw 1

/-- Sum of the weights of the stages whose enum string value is smaller
(in Python string order) than the given stage's value. -/
def lexBeforeWeight (stage : ProcessingStage) : ℚ :=
  ((allStages.filter (fun s => pyStrLt s.value stage.value)).map stageWeights).sum

/-- Modelled from the spec (§4.4), for comparison with the code: overall
progress as the sum of the weights of the stages strictly before the current
stage in the fixed pipeline order, plus `weight * stage_local_progress`. -/
def specOverallProgress (stage : ProcessingStage) (stageProgress : ℚ) : ℚ :=
  ((allStages.filter (fun s => stageIndex s < stageIndex stage)).map stageWeights).sum
    + stageWeights stage * stageProgress

/-- A progress event, from `ProgressInfo` in `pipeline_models.py`
(the optional ETA field is never set by the service and is omitted). -/
structure ProgressInfo where
  currentStage : ProcessingStage
  stageProgress : ℚ
  overallProgress : ℚ
  message : String
deriving DecidableEq, Repr

/-- Build the `ProgressInfo` that `_notify_progress` passes to the callback. -/
def notify (stage : ProcessingStage) (p : ℚ) (msg : String) : ProgressInfo :=
  { currentStage := stage
    stageProgress := p
    overallProgress := overallProgress stage p
    message := msg }

/-- A file system is the list of existing paths; the checkpoint detector only
ever asks whether a path exists (`os.path.exists`). -/
abbrev FS := List String

/-- Existence check (`os.path.exists`). -/
def fsExists (fs : FS) (p : String) : Bool := fs.contains p

/-- Model of `os.path.join` for the relative paths the service builds. -/
def joinPath (a b : String) : String := a ++ "/" ++ b

/-- Characters of the final path segment (after the last slash). -/
def afterLastSlash (l : List Char) : List Char :=
  l.foldl (fun acc ch => if ch = '/' then [] else acc ++ [ch]) []

/-- Model of `pathlib.Path(p).stem`: base name without its last suffix. -/
def pathStem (p : String) : String :=
  let base := afterLastSlash p.data
  let r := base.reverse
  if r.contains '.' then String.mk ((r.dropWhile (fun c => c ≠ '.')).drop 1).reverse
  else String.mk base

/-- Fuel-indexed replacement of every non-overlapping occurrence of `pat`
by `rep`, scanning left to right, as Python `str.replace` does. -/
def replaceAllGo (pat rep : List Char) : ℕ → List Char → List Char
  | 0, l => l
  | _ + 1, [] => []
  | fuel + 1, x :: xs =>
    if pat.isPrefixOf (x :: xs) && !pat.isEmpty then
      rep ++ replaceAllGo pat rep fuel ((x :: xs).drop pat.length)
    else x :: replaceAllGo pat rep fuel xs

/-- Python `s.replace(pat, rep)` for a non-empty pattern. -/
def pyReplace (s pat rep : String) : String :=
  String.mk (replaceAllGo pat.data rep.data s.data.length s.data)

/-- Whether the character list `l` ends with the suffix `suf`. -/
def endsWithChars (l suf : List Char) : Bool :=
  suf.reverse.isPrefixOf l.reverse

/-- The candidate report files of stage 4, in the order the code lists them. -/
def reportCandidates (outputDir paperName : String) : List String :=
  [joinPath outputDir "final_report.md",
   joinPath outputDir "report.md",
   joinPath outputDir (paperName ++ "_report.md")]

/-- Model of `next((f for f in possible_report_files if os.path.exists(f)),
possible_report_files[0])`. -/
def firstExistingReport (fs : FS) (outputDir paperName : String) : String :=
  match (reportCandidates outputDir paperName).find? (fun f => fsExists fs f) with
  | some f => f
  | none => joinPath outputDir "final_report.md"

/-- The checkpoint detector `_check_stage_completed`: pure existence checks
of each stage's well-known files, `False` for the post-processing stage. -/
def checkStageCompleted (fs : FS) (stage : ProcessingStage)
    (outputDir paperName : String) : Bool :=
  match stage with
  | .metadataExtraction =>
      fsExists fs (joinPath outputDir (paperName ++ "_metadata.json")) &&
      fsExists fs (joinPath outputDir (paperName ++ "_first_three_pages.md"))
  | .fullOcr =>
      fsExists fs (joinPath outputDir "complete.md")
  | .structureParsing =>
      fsExists fs (joinPath outputDir "paper_structure.json") &&
      fsExists fs (joinPath outputDir (paperName ++ "_attribute_tree.json"))
  | .reportGeneration =>
      (reportCandidates outputDir paperName).any (fun f => fsExists fs f)
  | .postProcessing => false

/-- One stage's result record, from `StageResult` in `pipeline_models.py`
(the `metadata`, `error_traceback` and `intermediate_files` fields carry
opaque payloads no claim refers to and are omitted). -/
structure StageResult where
  stage : ProcessingStage
  status : ProcessingStatus
  startTime : Option ℚ := none
  endTime : Option ℚ := none
  processingTime : ℚ := 0
  outputPath : Option String := none
  errorMessage : Option String := none
deriving DecidableEq, Repr

/-- The `success` property of `StageResult`. -/
def StageResult.success (r : StageResult) : Bool := r.status = .completed

/-- The `stages` dict of `PipelineResult` as an insertion-ordered
association list. -/
abbrev StageMap := List (ProcessingStage × StageResult)

/-- Model of `add_stage_result`: `self.stages[result.stage] = result`
(overwrite in place if the key exists, append otherwise). -/
def addStage (l : StageMap) (r : StageResult) : StageMap :=
  if l.any (fun p => p.1 = r.stage) then
    l.map (fun p => if p.1 = r.stage then (p.1, r) else p)
  else
    l ++ [(r.stage, r)]

/-- Model of `get_stage_result` / `self.stages.get(stage)`. -/
def getStage (l : StageMap) (s : ProcessingStage) : Option StageResult :=
  (l.find? (fun p => p.1 = s)).map Prod.snd

/-- Outcome of one `chat.completions.create` attempt inside
`LLMClient.get_completion`, classified by the `except` clause that would
catch it: `APIConnectionError`, `APIError`, `asyncio.TimeoutError`, or the
final catch-all `except Exception`. -/
inductive LLMAttempt
  | ok (content : String)
  | connErr (msg : String)
  | apiErr (msg : String)
  | timeoutErr
  | otherErr (msg : String)
deriving DecidableEq, Repr

/-- Whether an attempt outcome is a failure (raises into an `except` clause). -/
def LLMAttempt.isFailure : LLMAttempt → Bool
  | .ok _ => false
  | _ => true

/-- The message of the exception `get_completion` raises once retries are
exhausted, per failure class. -/
def llmRaiseMsg : LLMAttempt → String
  | .ok _ => ""
  | .connErr _ => "API 连接失败: 超过重试次数"
  | .apiErr m => "API 错误: " ++ m
  | .timeoutErr => "请求超时: 超过重试次数"
  | .otherErr m => "未知错误: " ++ m

/-- How a call to `get_completion` ends: a returned completion, a raised
exception, or the (dead) fall-through `return None` after the `while`. -/
inductive LLMResult
  | success (content : String)
  | raised (msg : String)
  | fellThrough
deriving DecidableEq, Repr

/-- The `while retries <= max_retries` loop of `get_completion`.
`op i` is the outcome of the `(i+1)`-th attempt; `r` is the current value of
`retries`; `ds` accumulates the durations (in seconds) of the
`asyncio.sleep(2 ** retries)` calls, in order.  Fuel bounds the iteration
count (the caller supplies enough for the loop to finish on its own). -/
def getCompletionGo (op : ℕ → LLMAttempt) (maxRetries : ℕ) :
    ℕ → ℕ → ℕ → List ℕ → LLMResult × ℕ × List ℕ
  | 0, _, attempts, ds => (.fellThrough, attempts, ds)
  | fuel + 1, r, attempts, ds =>
    if r ≤ maxRetries then
      match op attempts with
      | .ok c => (.success c, attempts + 1, ds)
      | e =>
        if r + 1 > maxRetries then (.raised (llmRaiseMsg e), attempts + 1, ds)
        else getCompletionGo op maxRetries fuel (r + 1) (attempts + 1)
               (ds ++ [2 ^ (r + 1)])
    else (.fellThrough, attempts, ds)

/-- `LLMClient.get_completion`, abstracted over the attempt outcomes:
returns the call result, the number of attempts made, and the list of
back-off sleeps performed. -/
def getCompletion (op : ℕ → LLMAttempt) (maxRetries : ℕ) :
    LLMResult × ℕ × List ℕ :=
  getCompletionGo op maxRetries (maxRetries + 2) 0 0 []

/-- Outcome of one `stage1_process` call inside `_run_stage1`'s retry loop:
success, an exception whose text contains "timeout"/"timed out"
(case-insensitively), or any other exception. -/
inductive Stage1Attempt
  | ok
  | timeoutErr (msg : String)
  | otherErr (msg : String)
deriving DecidableEq, Repr

/-- What `_run_stage1`'s hard-coded `while retry_count < max_retries` loop
(`max_retries = 3`) produces: the retry progress notifications it emits, the
raised exception message (`none` on success), and the number of attempts
made.  `i` is the current `retry_count`; the loop retries only timeout
errors and performs no sleep between attempts. -/
def stage1Loop (att : ℕ → Stage1Attempt) :
    ℕ → ℕ → List ProgressInfo × Option String × ℕ
  | 0, _ => ([], some "第一阶段处理失败：重试次数已用完", 0)
  | fuel + 1, i =>
    match att i with
    | .ok => ([], none, 1)
    | .timeoutErr m =>
      if i + 1 < 3 then
        let rest := stage1Loop att fuel (i + 1)
        (notify .metadataExtraction 0.3
            ("网络超时，正在重试 (" ++ toString (i + 1) ++ "/3)...") :: rest.1,
         rest.2.1, rest.2.2 + 1)
      else ([], some m, 1)
    | .otherErr m => ([], some m, 1)

/-- The aggregate result, from `PipelineResult` in `pipeline_models.py`. -/
structure PipelineResult where
  inputPdf : String
  outputDir : String
  pdfName : String
  overallStatus : ProcessingStatus := .notStarted
  startTime : ℚ
  endTime : Option ℚ := none
  totalProcessingTime : ℚ := 0
  stages : StageMap := []
  finalReportPath : Option String := none
  metadataPath : Option String := none
  structurePath : Option String := none
  pipelineError : Option String := none
deriving DecidableEq, Repr

/-- Per-run configuration, from `PipelineConfig` in `pipeline_models.py`.
Dictionaries become association lists; the mutable `llm_config` dict is an
opaque payload no claim refers to and is omitted. -/
structure PipelineConfig where
  outputDir : String := "output"
  apiName : Option String := none
  templatePaths : List (String × String) := []
  cropParams : Option (List (String × ℚ)) := none
  keepIntermediateFiles : Bool := false
  enableProgressCallback : Bool := true
  maxRetryAttempts : ℕ := 3
deriving DecidableEq, Repr

/-- Environment of one `_run_stage1` execution: the outcome of each
`stage1_process` attempt, the file system after the stage ran, and the
stage's wall-clock duration. -/
structure Stage1W where
  att : ℕ → Stage1Attempt
  fsAfter : FS
  dur : ℚ

/-- Environment of a collaborator call that either succeeds (for stage 4:
with the returned final-report path) or raises with a message, plus the
resulting file system and duration. -/
structure StageW (α : Type) where
  outcome : Except String α
  fsAfter : FS
  dur : ℚ

/-- Points of the `process_paper` `try` block, between stage blocks, at
which an exception not raised by a stage itself may occur (modelling the
spec's "programming error while wiring stage inputs").  `pK` sits after
stage `K`'s result was added and before stage `K+1`'s checkpoint check. -/
inductive InjectPoint
  | p0
  | p1
  | p2
  | p3
  | p4
deriving DecidableEq, Repr

/-- Everything the environment decides during one `process_paper` run. -/
structure World where
  t0 : ℚ
  tEnd : ℚ
  tick : ℚ
  fs0 : FS
  s1 : Stage1W
  s2 : StageW Unit
  s3 : StageW Unit
  s4 : StageW String
  s5 : StageW Unit
  inject : Option (InjectPoint × String)

/-- The injected exception firing at point `p`, if any. -/
def injAt (w : World) (p : InjectPoint) : Option String :=
  match w.inject with
  | some (q, m) => if q = p then some m else none
  | none => none

/-- A completed stage result as `_run_stageN` builds it on success. -/
def completedResult (stage : ProcessingStage) (t dur : ℚ) (out : String) :
    StageResult :=
  { stage := stage
    status := .completed
    startTime := some t
    endTime := some (t + dur)
    processingTime := dur
    outputPath := some out }

/-- A failed stage result as `_run_stageN` builds it in its `except` clause. -/
def failedResult (stage : ProcessingStage) (t dur : ℚ) (msg : String) :
    StageResult :=
  { stage := stage
    status := .failed
    startTime := some t
    endTime := some (t + dur)
    processingTime := dur
    errorMessage := some msg }

/-- The synthesized `StageResult` recorded when a checkpoint says a stage
already completed: status `COMPLETED`, `processing_time = 0.0`, output path
pointing at the existing artifact. -/
def skipResult (stage : ProcessingStage) (t : ℚ) (out : String) : StageResult :=
  { stage := stage
    status := .completed
    startTime := some t
    endTime := some t
    processingTime := 0
    outputPath := some out }

/-- `_run_stage1` (metadata extraction), with its internal hard-coded
timeout-retry loop. -/
def runStage1 (w1 : Stage1W) (t : ℚ) (pdfPath outputDir : String) :
    StageResult × List ProgressInfo × FS :=
  let pre := [notify .metadataExtraction 0 "开始元数据提取...",
              notify .metadataExtraction 0.3 "调用MinerU OCR服务..."]
  let loopOut := stage1Loop w1.att 3 0
  match loopOut.2.1 with
  | none =>
    (completedResult .metadataExtraction t w1.dur
       (joinPath outputDir (pathStem pdfPath ++ "_metadata.json")),
     pre ++ loopOut.1 ++ [notify .metadataExtraction 1 "元数据提取完成"],
     w1.fsAfter)
  | some m =>
    (failedResult .metadataExtraction t w1.dur m, pre ++ loopOut.1, w1.fsAfter)

/-- `_run_stage2` (full-text OCR): run the collaborator, then require
`complete.md` to exist, else fail with `FileNotFoundError`'s message. -/
def runStage2 (w2 : StageW Unit) (t : ℚ) (outputDir : String) :
    StageResult × List ProgressInfo × FS :=
  let pre := [notify .fullOcr 0 "开始全文OCR处理...",
              notify .fullOcr 0.2 "调用Mistral OCR服务..."]
  match w2.outcome with
  | .error m => (failedResult .fullOcr t w2.dur m, pre, w2.fsAfter)
  | .ok _ =>
    let p := joinPath outputDir "complete.md"
    if fsExists w2.fsAfter p then
      (completedResult .fullOcr t w2.dur p,
       pre ++ [notify .fullOcr 1 "全文OCR处理完成"], w2.fsAfter)
    else
      (failedResult .fullOcr t w2.dur ("全文OCR输出文件不存在: " ++ p), pre,
       w2.fsAfter)

/-- The four progress messages `_run_stage3` emits before finishing. -/
def stage3PreEmissions : List ProgressInfo :=
  [notify .structureParsing 0 "开始结构化解析...",
   notify .structureParsing 0.2 "提取论文框架结构...",
   notify .structureParsing 0.5 "进行论文类型分类...",
   notify .structureParsing 0.7 "提取论文属性树..."]

/-- `_run_stage3` (structure parsing then classification and attribute-tree
extraction).  On failure, `failAt ∈ {0,1,2}` says which of the three
collaborator calls raised, which fixes how many notifications were emitted
first. -/
def runStage3 (w3 : StageW Unit) (failAt : ℕ) (t : ℚ)
    (completeMdPath outputDir : String) :
    StageResult × List ProgressInfo × FS :=
  match w3.outcome with
  | .error m =>
    (failedResult .structureParsing t w3.dur m,
     stage3PreEmissions.take (2 + min failAt 2), w3.fsAfter)
  | .ok _ =>
    let paperName := pyReplace (pathStem completeMdPath) "_full" ""
    (completedResult .structureParsing t w3.dur
       (joinPath outputDir (paperName ++ "_attribute_tree.json")),
     stage3PreEmissions ++ [notify .structureParsing 1 "论文内容分析完成"],
     w3.fsAfter)

/-- Whether a path denotes a file directly inside the output directory whose
name matches the glob `*_paper_structure.json` (any stem, mandatory
suffix; `Path.glob` does not recurse). -/
def structureGlobMatch (outputDir f : String) : Bool :=
  let dirSlash := (outputDir ++ "/").data
  dirSlash.isPrefixOf f.data &&
  (let rest := f.data.drop dirSlash.length
   !rest.contains '/' && endsWithChars rest "_paper_structure.json".data)

/-- `_run_stage4` (report generation): locate a structure JSON by glob, then
run the report collaborator. -/
def runStage4 (w4 : StageW String) (t : ℚ) (fs : FS) (outputDir : String) :
    StageResult × List ProgressInfo × FS :=
  let pre := [notify .reportGeneration 0 "开始生成报告...",
              notify .reportGeneration 0.2 "准备报告生成..."]
  let globbed :=
    match fs.filter (fun f => structureGlobMatch outputDir f) with
    | [] => fs.filter (fun f => f = joinPath outputDir "paper_structure.json")
    | l => l
  match globbed with
  | [] =>
    (failedResult .reportGeneration t w4.dur "未找到结构化解析文件，无法生成报告",
     pre, w4.fsAfter)
  | _ :: _ =>
    match w4.outcome with
    | .error m =>
      (failedResult .reportGeneration t w4.dur m,
       pre ++ [notify .reportGeneration 0.5 "调用报告生成模块..."], w4.fsAfter)
    | .ok finalReportPath =>
      (completedResult .reportGeneration t w4.dur finalReportPath,
       pre ++ [notify .reportGeneration 0.5 "调用报告生成模块...",
               notify .reportGeneration 1 "深度分析报告生成完成"], w4.fsAfter)

/-- `_run_stage5` (post-processing): a failure covers both an exception and
`post_result["success"] == False` (with the joined error list as message). -/
def runStage5 (w5 : StageW Unit) (t : ℚ) (outputDir : String) :
    StageResult × List ProgressInfo × FS :=
  let pre := [notify .postProcessing 0 "开始后处理...",
              notify .postProcessing 0.3 "清理中间文件..."]
  match w5.outcome with
  | .error m => (failedResult .postProcessing t w5.dur m, pre, w5.fsAfter)
  | .ok _ =>
    (completedResult .postProcessing t w5.dur outputDir,
     pre ++ [notify .postProcessing 1 "后处理完成"], w5.fsAfter)

/-- The `f"第N阶段失败: ..."` pipeline-error message of each content stage
and of post-processing. -/
def stageFailMsgZh : ProcessingStage → String
  | .metadataExtraction => "第一阶段失败: "
  | .fullOcr => "第二阶段失败: "
  | .structureParsing => "第三阶段失败: "
  | .reportGeneration => "第四阶段失败: "
  | .postProcessing => "第五阶段失败: "

/-- Mark the run failed after stage `k`'s result came back unsuccessful
(Python renders a `None` message as the string "None"). -/
def failPipeline (r : PipelineResult) (k : ProcessingStage) (sr : StageResult) :
    PipelineResult :=
  { r with overallStatus := .failed
           pipelineError := some (stageFailMsgZh k ++ sr.errorMessage.getD "None") }

/-- The `StageResult` the top-level `except` clause records: always against
`METADATA_EXTRACTION` (the hard-coded "默认阶段"), with dataclass defaults
for the times. -/
def exceptRecord (msg : String) : StageResult :=
  { stage := .metadataExtraction
    status := .failed
    errorMessage := some msg }

/-- The top-level `except` clause of `process_paper`. -/
def exceptBranch (r : PipelineResult) (msg : String) : PipelineResult :=
  { r with overallStatus := .failed
           pipelineError := some ("流水线异常: " ++ msg)
           stages := addStage r.stages (exceptRecord msg) }

/-- Stage-1 block of `process_paper`: checkpoint check, then either the
synthesized skip result or a real `_run_stage1` execution. -/
def stageBlock1 (w : World) (pdfPath outputDir pdfName : String) :
    StageResult × List ProgressInfo × FS :=
  if checkStageCompleted w.fs0 .metadataExtraction outputDir pdfName then
    (skipResult .metadataExtraction w.tick
       (joinPath outputDir (pdfName ++ "_metadata.json")),
     [notify .metadataExtraction 1 "第一阶段已完成（断点续传）"], w.fs0)
  else runStage1 w.s1 w.tick pdfPath outputDir

/-- Stage-2 block of `process_paper`. -/
def stageBlock2 (w : World) (fs : FS) (outputDir pdfName : String) :
    StageResult × List ProgressInfo × FS :=
  if checkStageCompleted fs .fullOcr outputDir pdfName then
    (skipResult .fullOcr w.tick (joinPath outputDir "complete.md"),
     [notify .fullOcr 1 "第二阶段已完成（断点续传）"], fs)
  else runStage2 w.s2 w.tick outputDir

/-- Stage-3 block of `process_paper`; `completeMdPath` is stage 2's
`output_path`. -/
def stageBlock3 (w : World) (fs : FS) (completeMdPath outputDir pdfName : String) :
    StageResult × List ProgressInfo × FS :=
  if checkStageCompleted fs .structureParsing outputDir pdfName then
    (skipResult .structureParsing w.tick
       (joinPath outputDir (pdfName ++ "_attribute_tree.json")),
     [notify .structureParsing 1 "第三阶段已完成（断点续传）"], fs)
  else runStage3 w.s3 0 w.tick completeMdPath outputDir

/-- Stage-4 block of `process_paper`. -/
def stageBlock4 (w : World) (fs : FS) (outputDir pdfName : String) :
    StageResult × List ProgressInfo × FS :=
  if checkStageCompleted fs .reportGeneration outputDir pdfName then
    (skipResult .reportGeneration w.tick (firstExistingReport fs outputDir pdfName),
     [notify .reportGeneration 1 "第四阶段已完成（断点续传）"], fs)
  else runStage4 w.s4 w.tick fs outputDir

/-- Result of the `try` body of `process_paper`: the pipeline result so far,
the progress events emitted so far, and the file system left behind. -/
structure BodyOut where
  res : PipelineResult
  em : List ProgressInfo
  fs : FS
deriving DecidableEq, Repr

/-- The `try` body of `process_paper`: the five stage blocks in order, with
early return on the first unsuccessful content stage, and the top-level
`except` clause for injected non-stage exceptions. -/
def tryBody (w : World) (pdfPath pdfName outputDir : String)
    (r0 : PipelineResult) : BodyOut :=
  match injAt w .p0 with
  | some m => ⟨exceptBranch r0 m, [], w.fs0⟩
  | none =>
  let b1 := stageBlock1 w pdfPath outputDir pdfName
  let r1 := { r0 with stages := addStage r0.stages b1.1 }
  if ¬ b1.1.success then ⟨failPipeline r1 .metadataExtraction b1.1, b1.2.1, b1.2.2⟩
  else
  match injAt w .p1 with
  | some m => ⟨exceptBranch r1 m, b1.2.1, b1.2.2⟩
  | none =>
  let b2 := stageBlock2 w b1.2.2 outputDir pdfName
  let r2 := { r1 with stages := addStage r1.stages b2.1 }
  if ¬ b2.1.success then
    ⟨failPipeline r2 .fullOcr b2.1, b1.2.1 ++ b2.2.1, b2.2.2⟩
  else
  match injAt w .p2 with
  | some m => ⟨exceptBranch r2 m, b1.2.1 ++ b2.2.1, b2.2.2⟩
  | none =>
  let b3 := stageBlock3 w b2.2.2 (b2.1.outputPath.getD "") outputDir pdfName
  let r3 := { r2 with stages := addStage r2.stages b3.1 }
  if ¬ b3.1.success then
    ⟨failPipeline r3 .structureParsing b3.1, b1.2.1 ++ b2.2.1 ++ b3.2.1, b3.2.2⟩
  else
  match injAt w .p3 with
  | some m => ⟨exceptBranch r3 m, b1.2.1 ++ b2.2.1 ++ b3.2.1, b3.2.2⟩
  | none =>
  let b4 := stageBlock4 w b3.2.2 outputDir pdfName
  let r4 := { r3 with stages := addStage r3.stages b4.1 }
  if ¬ b4.1.success then
    ⟨failPipeline r4 .reportGeneration b4.1,
     b1.2.1 ++ b2.2.1 ++ b3.2.1 ++ b4.2.1, b4.2.2⟩
  else
  match injAt w .p4 with
  | some m => ⟨exceptBranch r4 m, b1.2.1 ++ b2.2.1 ++ b3.2.1 ++ b4.2.1, b4.2.2⟩
  | none =>
  let b5 := runStage5 w.s5 w.tick outputDir
  let r5 := { r4 with stages := addStage r4.stages b5.1 }
  if b5.1.success then
    ⟨{ r5 with overallStatus := .completed
               finalReportPath := b4.1.outputPath
               metadataPath := b1.1.outputPath
               structurePath := b3.1.outputPath },
     b1.2.1 ++ b2.2.1 ++ b3.2.1 ++ b4.2.1 ++ b5.2.1, b5.2.2⟩
  else
    ⟨failPipeline r5 .postProcessing b5.1,
     b1.2.1 ++ b2.2.1 ++ b3.2.1 ++ b4.2.1 ++ b5.2.1, b5.2.2⟩

/-- The `PipelineResult` as `process_paper` initializes it before the `try`
block: status `IN_PROGRESS`, empty stage map. -/
def initResult (pdfPath outputDir pdfName : String) (t0 : ℚ) : PipelineResult :=
  { inputPdf := pdfPath
    outputDir := outputDir
    pdfName := pdfName
    overallStatus := .inProgress
    startTime := t0 }

/-- Everything observable about one `process_paper` run: the returned
`PipelineResult`, the progress events that would be passed to a registered
progress callback, the final file system, and the path the result was
serialized to. -/
structure RunOutput where
  result : PipelineResult
  trace : List ProgressInfo
  fsFinal : FS
  savedResultPath : Option String
deriving DecidableEq, Repr

/-- `PaperProcessingService.process_paper`: resolve names, run the `try`
body, then — in the `finally` clause, on every outcome — set `end_time` and
`total_processing_time` and serialize the result to `pipeline_result.json`
in the output directory. -/
def processPaper (cfg : PipelineConfig) (w : World) (pdfPath : String) :
    RunOutput :=
  let pdfName := pathStem pdfPath
  let outputDir := joinPath cfg.outputDir pdfName
  let body := tryBody w pdfPath pdfName outputDir
    (initResult pdfPath outputDir pdfName w.t0)
  { result := { body.res with endTime := some w.tEnd
                              totalProcessingTime := w.tEnd - w.t0 }
    trace := body.em
    fsFinal := body.fs ++ [joinPath outputDir "pipeline_result.json"]
    savedResultPath := some (joinPath outputDir "pipeline_result.json") }

/-- A default configuration with output root `out`, for concrete runs. -/
def cfgDemo : PipelineConfig := { outputDir := "out" }

/-- A world in which every collaborator succeeds at first try on an empty
output directory: the canonical fully successful run of `paper.pdf`. -/
def wSuccess : World :=
  { t0 := 0, tEnd := 100, tick := 5, fs0 := []
    s1 := { att := fun _ => .ok
            fsAfter := ["out/paper/paper_metadata.json",
                        "out/paper/paper_first_three_pages.md"]
            dur := 1 }
    s2 := { outcome := .ok ()
            fsAfter := ["out/paper/paper_metadata.json",
                        "out/paper/paper_first_three_pages.md",
                        "out/paper/complete.md"]
            dur := 1 }
    s3 := { outcome := .ok ()
            fsAfter := ["out/paper/paper_metadata.json",
                        "out/paper/paper_first_three_pages.md",
                        "out/paper/complete.md",
                        "out/paper/paper_structure.json",
                        "out/paper/complete_attribute_tree.json"]
            dur := 1 }
    s4 := { outcome := .ok "out/paper/final_report.md"
            fsAfter := ["out/paper/paper_metadata.json",
                        "out/paper/paper_first_three_pages.md",
                        "out/paper/complete.md",
                        "out/paper/paper_structure.json",
                        "out/paper/complete_attribute_tree.json",
                        "out/paper/final_report.md"]
            dur := 1 }
    s5 := { outcome := .ok (), fsAfter := ["out/paper/final_report.md"], dur := 1 }
    inject := none }

/-- The artifacts of a previously completed run of `paper.pdf`, exactly the
files the checkpoint detector looks for. -/
def ckptFiles : FS :=
  ["out/paper/paper_metadata.json",
   "out/paper/paper_first_three_pages.md",
   "out/paper/complete.md",
   "out/paper/paper_structure.json",
   "out/paper/paper_attribute_tree.json",
   "out/paper/final_report.md"]

/-- A second run over the same unchanged output directory: every content
stage's checkpoint files already exist. -/
def wCheckpointed : World := { wSuccess with fs0 := ckptFiles }

/-- The successful-prefix world in which only post-processing fails. -/
def wPostFail : World :=
  { wSuccess with s5 := { outcome := .error "重命名失败", fsAfter := [], dur := 1 } }

/-- A run over a completed directory where a non-stage exception ("boom")
fires after stage 2's result was recorded, while stage 3 was being wired. -/
def wWiringBoom : World := { wCheckpointed with inject := some (.p2, "boom") }

/-- A run where a non-stage exception fires right at the start of the `try`
block. -/
def wWiringEarly : World := { wSuccess with inject := some (.p0, "bad wiring") }

/-- A world where the full-text-OCR collaborator raises. -/
def wOcrFail : World :=
  { wSuccess with s2 := { outcome := .error "OCR 服务不可用", fsAfter := [], dur := 1 } }

/-- All progress events of a list carry an overall progress within `[0,1]`. -/
def emOk (l : List ProgressInfo) : Prop :=
  ∀ e ∈ l, 0 ≤ e.overallProgress ∧ e.overallProgress ≤ 1

/-- Rank of each stage's enum string value in Python string order:
"full_ocr" < "metadata_extraction" < "post_processing" <
"report_generation" < "structure_parsing". -/
def stageStrRank : ProcessingStage → ℕ
  | .fullOcr => 0
  | .metadataExtraction => 1
  | .postProcessing => 2
  | .reportGeneration => 3
  | .structureParsing => 4

/-! ## Theorems -/

theorem pyStrLt_value (a b : ProcessingStage) :
    pyStrLt a.value b.value = decide (stageStrRank a < stageStrRank b) := by
  cases a <;> cases b <;> decide

theorem lexBeforeWeight_eval :
    lexBeforeWeight .metadataExtraction = 0.30 ∧
    lexBeforeWeight .fullOcr = 0 ∧
    lexBeforeWeight .structureParsing = 0.75 ∧
    lexBeforeWeight .reportGeneration = 0.50 ∧
    lexBeforeWeight .postProcessing = 0.45 := by
  refine ⟨?_, ?_, ?_, ?_, ?_⟩ <;>
    simp [lexBeforeWeight, allStages, pyStrLt_value, stageStrRank, stageWeights] <;>
    norm_num

theorem overallProgress_closed (s : ProcessingStage) (p : ℚ) :
    overallProgress s p = min (lexBeforeWeight s + stageWeights s * p) 1 := by
  cases s <;>
    simp [overallProgress, lexBeforeWeight, allStages, pyStrLt_value, stageStrRank,
      stageWeights] <;>
    ring_nf

theorem injAt_none {w : World} (h : w.inject = none) (p : InjectPoint) :
    injAt w p = none := by
  simp [injAt, h]

theorem success_iff (r : StageResult) :
    r.success = true ↔ r.status = .completed := by
  simp [StageResult.success]

theorem stageBlock1_stage (w : World) (p d n : String) :
    (stageBlock1 w p d n).1.stage = .metadataExtraction := by
  simp only [stageBlock1, runStage1]
  repeat' split
  all_goals rfl

theorem stageBlock2_stage (w : World) (fs : FS) (d n : String) :
    (stageBlock2 w fs d n).1.stage = .fullOcr := by
  simp only [stageBlock2, runStage2]
  repeat' split
  all_goals rfl

theorem stageBlock3_stage (w : World) (fs : FS) (c d n : String) :
    (stageBlock3 w fs c d n).1.stage = .structureParsing := by
  simp only [stageBlock3, runStage3]
  repeat' split
  all_goals rfl

theorem stageBlock4_stage (w : World) (fs : FS) (d n : String) :
    (stageBlock4 w fs d n).1.stage = .reportGeneration := by
  simp only [stageBlock4, runStage4]
  repeat' split
  all_goals rfl

theorem runStage5_stage (w5 : StageW Unit) (t : ℚ) (d : String) :
    (runStage5 w5 t d).1.stage = .postProcessing := by
  simp only [runStage5]
  repeat' split
  all_goals rfl

theorem getStage_nil (s : ProcessingStage) : getStage [] s = none := rfl

theorem getStage_cons (x : ProcessingStage × StageResult) (xs : StageMap)
    (s : ProcessingStage) :
    getStage (x :: xs) s = if x.1 = s then some x.2 else getStage xs s := by
  by_cases h : x.1 = s
  · rw [getStage, List.find?_cons_of_pos _ (by simpa using h), if_pos h]
    rfl
  · rw [getStage, List.find?_cons_of_neg _ (by simpa using h), if_neg h]
    rfl

theorem upd_map_getStage (r : StageResult) (s : ProcessingStage) :
    ∀ l : StageMap,
      getStage (l.map (fun p => if p.1 = r.stage then (p.1, r) else p)) s =
        if s = r.stage then
          (if l.any (fun p => p.1 = r.stage) then some r else none)
        else getStage l s := by
  intro l
  induction l with
  | nil =>
    by_cases h : s = r.stage <;> simp [getStage, h]
  | cons x xs ih =>
    by_cases hx : x.1 = r.stage <;> by_cases hsr : s = r.stage
    · subst hsr
      simp [List.map_cons, getStage_cons, hx, ih]
    · have hrs : ¬ r.stage = s := fun hh => hsr hh.symm
      simp [List.map_cons, getStage_cons, hx, hsr, hrs, ih]
    · subst hsr
      rw [List.map_cons, getStage_cons, if_neg (by simp [hx]), ih]
      cases hb : xs.any (fun p => decide (p.1 = r.stage)) <;>
        simp [List.any_cons, hb, hx]
    · simp [List.map_cons, getStage_cons, hx, hsr, ih]

theorem append_single_getStage (r : StageResult) (s : ProcessingStage) :
    ∀ l : StageMap, l.any (fun p => p.1 = r.stage) = false →
      getStage (l ++ [(r.stage, r)]) s =
        if s = r.stage then some r else getStage l s := by
  intro l
  induction l with
  | nil =>
    intro _
    by_cases h : s = r.stage <;> simp [getStage_cons, getStage, h, eq_comm]
  | cons x xs ih =>
    intro hany
    simp only [List.any_cons, Bool.or_eq_false_iff, decide_eq_false_iff_not] at hany
    have ihx := ih hany.2
    by_cases hxl : x.1 = s <;> by_cases hsr : s = r.stage <;>
      simp_all [List.cons_append, getStage_cons]

theorem getStage_addStage (l : StageMap) (r : StageResult)
    (s : ProcessingStage) :
    getStage (addStage l r) s = if s = r.stage then some r else getStage l s := by
  by_cases hany : l.any (fun p => p.1 = r.stage)
  · simp only [addStage, hany, if_true]
    rw [upd_map_getStage]
    simp [hany]
  · simp only [addStage, hany, if_false]
    exact append_single_getStage r s l (by
      rw [← Bool.not_eq_true]
      exact hany)

theorem skipResult_stage (s : ProcessingStage) (t : ℚ) (o : String) :
    (skipResult s t o).stage = s := rfl

theorem skipResult_success (s : ProcessingStage) (t : ℚ) (o : String) :
    (skipResult s t o).success = true := rfl

theorem runStage5_success_iff (w5 : StageW Unit) (t : ℚ) (d : String) :
    (runStage5 w5 t d).1.success = true ↔ w5.outcome = .ok () := by
  rcases hm : w5.outcome with m | u
  · simp [runStage5, hm, failedResult, StageResult.success]
  · cases u
    simp [runStage5, hm, completedResult, StageResult.success]

/-- C1 (counterexample): re-running `process_paper` over a directory that
already holds all of a previous completed run's artifacts records every
checkpointed content stage with status `Completed` — not `Skipped` — and
executes the PostProcessing stage afresh instead of skipping it. -/
theorem checkpoint_skip_cex :
    ((processPaper cfgDemo wCheckpointed "paper.pdf").result.stages.map
        (fun x => (x.1, x.2.status, x.2.processingTime))) =
      [(.metadataExtraction, .completed, (0 : ℚ)),
       (.fullOcr, .completed, (0 : ℚ)),
       (.structureParsing, .completed, (0 : ℚ)),
       (.reportGeneration, .completed, (0 : ℚ)),
       (.postProcessing, .completed, (1 : ℚ))] ∧
    ProcessingStatus.completed ≠ ProcessingStatus.skipped ∧
    (processPaper cfgDemo wCheckpointed "paper.pdf").result.overallStatus =
      .completed :=
  ⟨rfl, by decide, rfl⟩

/-- C1 (amended): for every stage the Checkpoint Detector reports complete,
the orchestrator records a synthesized `StageResult` with status `Completed`
(the code never uses `Skipped`) and `processing_time = 0` referencing the
existing artifact; PostProcessing has no checkpoint and is executed afresh
on every run, so when all four content-stage checkpoints exist at the start
of a run the returned result has the four content stages `Completed` with
zero processing time, a freshly executed PostProcessing stage, and
`overall_status = Completed` iff that PostProcessing execution succeeds. -/
theorem checkpointed_run (cfg : PipelineConfig) (w : World) (pdf : String)
    (hinj : w.inject = none)
    (h1 : checkStageCompleted w.fs0 .metadataExtraction
      (joinPath cfg.outputDir (pathStem pdf)) (pathStem pdf) = true)
    (h2 : checkStageCompleted w.fs0 .fullOcr
      (joinPath cfg.outputDir (pathStem pdf)) (pathStem pdf) = true)
    (h3 : checkStageCompleted w.fs0 .structureParsing
      (joinPath cfg.outputDir (pathStem pdf)) (pathStem pdf) = true)
    (h4 : checkStageCompleted w.fs0 .reportGeneration
      (joinPath cfg.outputDir (pathStem pdf)) (pathStem pdf) = true) :
    getStage (processPaper cfg w pdf).result.stages .metadataExtraction =
      some (skipResult .metadataExtraction w.tick
        (joinPath (joinPath cfg.outputDir (pathStem pdf))
          (pathStem pdf ++ "_metadata.json"))) ∧
    getStage (processPaper cfg w pdf).result.stages .fullOcr =
      some (skipResult .fullOcr w.tick
        (joinPath (joinPath cfg.outputDir (pathStem pdf)) "complete.md")) ∧
    getStage (processPaper cfg w pdf).result.stages .structureParsing =
      some (skipResult .structureParsing w.tick
        (joinPath (joinPath cfg.outputDir (pathStem pdf))
          (pathStem pdf ++ "_attribute_tree.json"))) ∧
    getStage (processPaper cfg w pdf).result.stages .reportGeneration =
      some (skipResult .reportGeneration w.tick
        (firstExistingReport w.fs0 (joinPath cfg.outputDir (pathStem pdf))
          (pathStem pdf))) ∧
    getStage (processPaper cfg w pdf).result.stages .postProcessing =
      some (runStage5 w.s5 w.tick (joinPath cfg.outputDir (pathStem pdf))).1 ∧
    ((processPaper cfg w pdf).result.overallStatus = .completed ↔
      w.s5.outcome = .ok ()) := by
  have hb1 : stageBlock1 w pdf (joinPath cfg.outputDir (pathStem pdf))
      (pathStem pdf) =
      (skipResult .metadataExtraction w.tick
        (joinPath (joinPath cfg.outputDir (pathStem pdf))
          (pathStem pdf ++ "_metadata.json")),
       [notify .metadataExtraction 1 "第一阶段已完成（断点续传）"], w.fs0) := by
    simp [stageBlock1, h1]
  have hb2 : stageBlock2 w w.fs0 (joinPath cfg.outputDir (pathStem pdf))
      (pathStem pdf) =
      (skipResult .fullOcr w.tick
        (joinPath (joinPath cfg.outputDir (pathStem pdf)) "complete.md"),
       [notify .fullOcr 1 "第二阶段已完成（断点续传）"], w.fs0) := by
    simp [stageBlock2, h2]
  have hb3 : ∀ c, stageBlock3 w w.fs0 c (joinPath cfg.outputDir (pathStem pdf))
      (pathStem pdf) =
      (skipResult .structureParsing w.tick
        (joinPath (joinPath cfg.outputDir (pathStem pdf))
          (pathStem pdf ++ "_attribute_tree.json")),
       [notify .structureParsing 1 "第三阶段已完成（断点续传）"], w.fs0) := by
    intro c
    simp [stageBlock3, h3]
  have hb4 : stageBlock4 w w.fs0 (joinPath cfg.outputDir (pathStem pdf))
      (pathStem pdf) =
      (skipResult .reportGeneration w.tick
        (firstExistingReport w.fs0 (joinPath cfg.outputDir (pathStem pdf))
          (pathStem pdf)),
       [notify .reportGeneration 1 "第四阶段已完成（断点续传）"], w.fs0) := by
    simp [stageBlock4, h4]
  have key : ∀ s, getStage (tryBody w pdf (pathStem pdf)
      (joinPath cfg.outputDir (pathStem pdf))
      (initResult pdf (joinPath cfg.outputDir (pathStem pdf)) (pathStem pdf)
        w.t0)).res.stages s =
      getStage (addStage (addStage (addStage (addStage (addStage []
        (skipResult .metadataExtraction w.tick
          (joinPath (joinPath cfg.outputDir (pathStem pdf))
            (pathStem pdf ++ "_metadata.json"))))
        (skipResult .fullOcr w.tick
          (joinPath (joinPath cfg.outputDir (pathStem pdf)) "complete.md")))
        (skipResult .structureParsing w.tick
          (joinPath (joinPath cfg.outputDir (pathStem pdf))
            (pathStem pdf ++ "_attribute_tree.json"))))
        (skipResult .reportGeneration w.tick
          (firstExistingReport w.fs0 (joinPath cfg.outputDir (pathStem pdf))
            (pathStem pdf))))
        (runStage5 w.s5 w.tick (joinPath cfg.outputDir (pathStem pdf))).1) s ∧
      ((tryBody w pdf (pathStem pdf) (joinPath cfg.outputDir (pathStem pdf))
        (initResult pdf (joinPath cfg.outputDir (pathStem pdf)) (pathStem pdf)
          w.t0)).res.overallStatus = .completed ↔
        w.s5.outcome = .ok ()) := by
    intro s
    simp only [tryBody, injAt_none hinj, hb1, hb2, hb3, hb4, skipResult_success,
      initResult, eq_self_iff_true, not_true, if_false, if_true]
    by_cases hps : (runStage5 w.s5 w.tick
        (joinPath cfg.outputDir (pathStem pdf))).1.success = true
    · rw [if_pos hps]
      refine ⟨rfl, ?_⟩
      have hok := (runStage5_success_iff w.s5 w.tick
        (joinPath cfg.outputDir (pathStem pdf))).mp hps
      simp [hok]
    · rw [if_neg hps]
      refine ⟨rfl, ?_⟩
      rw [← runStage5_success_iff w.s5 w.tick
        (joinPath cfg.outputDir (pathStem pdf))]
      simp [failPipeline, hps]
  refine ⟨?_, ?_, ?_, ?_, ?_, (key .metadataExtraction).2⟩ <;>
    rw [show ∀ s, getStage (processPaper cfg w pdf).result.stages s =
        getStage (tryBody w pdf (pathStem pdf)
          (joinPath cfg.outputDir (pathStem pdf))
          (initResult pdf (joinPath cfg.outputDir (pathStem pdf))
            (pathStem pdf) w.t0)).res.stages s from fun s => rfl] <;>
    rw [(key _).1] <;>
    simp [getStage_addStage, skipResult_stage, runStage5_stage]

/-- Witness for the amended C1 theorem: the second run over the completed
directory `out/paper`, with all four checkpoint hypotheses discharged by
computation. -/
theorem checkpointed_run_witness :
    ((processPaper cfgDemo wCheckpointed "paper.pdf").result.overallStatus =
        .completed ↔ wCheckpointed.s5.outcome = .ok ()) ∧
    getStage (processPaper cfgDemo wCheckpointed "paper.pdf").result.stages
        .postProcessing =
      some (runStage5 wCheckpointed.s5 wCheckpointed.tick
        (joinPath cfgDemo.outputDir (pathStem "paper.pdf"))).1 :=
  ⟨(checkpointed_run cfgDemo wCheckpointed "paper.pdf" rfl rfl rfl rfl
      rfl).2.2.2.2.2,
   (checkpointed_run cfgDemo wCheckpointed "paper.pdf" rfl rfl rfl rfl
      rfl).2.2.2.2.1⟩

/-- C5 (counterexample): a non-stage exception ("boom") that fires while
stage 3 is being wired — stages 1 and 2 having already completed — is
recorded against MetadataExtraction (overwriting that stage's completed
result), not against the stage that was active: StructureParsing gets no
`StageResult` at all. -/
theorem exception_attribution_cex :
    (processPaper cfgDemo wWiringBoom "paper.pdf").result.overallStatus =
      .failed ∧
    (processPaper cfgDemo wWiringBoom "paper.pdf").result.pipelineError =
      some "流水线异常: boom" ∧
    (getStage (processPaper cfgDemo wWiringBoom "paper.pdf").result.stages
        .metadataExtraction).map (fun r => r.status) = some .failed ∧
    getStage (processPaper cfgDemo wWiringBoom "paper.pdf").result.stages
      .structureParsing = none ∧
    (getStage (processPaper cfgDemo wWiringBoom "paper.pdf").result.stages
        .fullOcr).map (fun r => r.status) = some .completed :=
  ⟨rfl, rfl, rfl, rfl, rfl⟩

/-- C5 (amended): `process_paper` never propagates an exception: on every
outcome it sets `end_time` and `total_processing_time` and serializes the
result to `pipeline_result.json`; an injected non-stage exception always
yields `overall_status = Failed`, and the top-level handler records the
exception unconditionally against the MetadataExtraction stage (the
hard-coded "default stage"), not against the stage that was active. -/
theorem top_level_exception_contract (cfg : PipelineConfig) (w : World)
    (pdf m : String) :
    (processPaper cfg w pdf).result.endTime = some w.tEnd ∧
    (processPaper cfg w pdf).result.totalProcessingTime = w.tEnd - w.t0 ∧
    (processPaper cfg w pdf).savedResultPath =
      some (joinPath (joinPath cfg.outputDir (pathStem pdf))
        "pipeline_result.json") ∧
    (∀ ip : InjectPoint, w.inject = some (ip, m) →
      (processPaper cfg w pdf).result.overallStatus = .failed) ∧
    (w.inject = some (.p0, m) →
      (processPaper cfg w pdf).result.pipelineError =
        some ("流水线异常: " ++ m) ∧
      getStage (processPaper cfg w pdf).result.stages .metadataExtraction =
        some (exceptRecord m)) := by
  refine ⟨rfl, rfl, rfl, ?_, ?_⟩
  · intro ip hip
    show (tryBody w pdf (pathStem pdf) (joinPath cfg.outputDir (pathStem pdf))
      (initResult pdf (joinPath cfg.outputDir (pathStem pdf)) (pathStem pdf)
        w.t0)).res.overallStatus = .failed
    simp only [tryBody]
    repeat' split
    all_goals first
      | rfl
      | (exfalso
         cases ip <;> simp_all [injAt])
  · intro hip
    have h0 : injAt w .p0 = some m := by
      simp [injAt, hip]
    constructor
    · show (tryBody w pdf (pathStem pdf)
        (joinPath cfg.outputDir (pathStem pdf))
        (initResult pdf (joinPath cfg.outputDir (pathStem pdf)) (pathStem pdf)
          w.t0)).res.pipelineError = some ("流水线异常: " ++ m)
      simp only [tryBody, h0]
      rfl
    · show getStage (tryBody w pdf (pathStem pdf)
        (joinPath cfg.outputDir (pathStem pdf))
        (initResult pdf (joinPath cfg.outputDir (pathStem pdf)) (pathStem pdf)
          w.t0)).res.stages .metadataExtraction = some (exceptRecord m)
      simp only [tryBody, h0]
      show getStage (addStage [] (exceptRecord m)) .metadataExtraction =
        some (exceptRecord m)
      rw [getStage_addStage]
      simp [exceptRecord]

/-- Witness for the amended C5 theorem: the exception "bad wiring" injected
at the start of the `try` block. -/
theorem top_level_exception_contract_witness :
    wWiringEarly.inject = some (.p0, "bad wiring") ∧
    (processPaper cfgDemo wWiringEarly "paper.pdf").result.overallStatus =
      .failed ∧
    (processPaper cfgDemo wWiringEarly "paper.pdf").result.pipelineError =
      some ("流水线异常: " ++ "bad wiring") ∧
    getStage (processPaper cfgDemo wWiringEarly "paper.pdf").result.stages
      .metadataExtraction = some (exceptRecord "bad wiring") := by
  have hc := top_level_exception_contract cfgDemo wWiringEarly "paper.pdf"
    "bad wiring"
  exact ⟨rfl, hc.2.2.2.1 .p0 rfl, (hc.2.2.2.2 rfl).1, (hc.2.2.2.2 rfl).2⟩

theorem runStage5_errorMessage (w5 : StageW Unit) (t : ℚ) (d m : String)
    (hm : w5.outcome = .error m) :
    (runStage5 w5 t d).1.errorMessage = some m := by
  simp [runStage5, hm, failedResult]

/-- C4 (counterexample): a run in which the four content stages complete
but PostProcessing fails returns `overall_status = Failed` — the
PostProcessing failure does downgrade the pipeline, with the stage-5 failure
promoted into `pipeline_error`. -/
theorem post_processing_downgrade_cex :
    ((processPaper cfgDemo wPostFail "paper.pdf").result.stages.map
        (fun x => (x.1, x.2.status))) =
      [(.metadataExtraction, .completed), (.fullOcr, .completed),
       (.structureParsing, .completed), (.reportGeneration, .completed),
       (.postProcessing, .failed)] ∧
    (processPaper cfgDemo wPostFail "paper.pdf").result.overallStatus =
      .failed ∧
    ProcessingStatus.failed ≠ ProcessingStatus.completed ∧
    (processPaper cfgDemo wPostFail "paper.pdf").result.pipelineError =
      some "第五阶段失败: 重命名失败" :=
  ⟨rfl, rfl, by decide, rfl⟩

/-- C4 (amended): whenever the four content stages resolve to Completed,
the PostProcessing stage is always executed; but — contrary to the claim —
its failure downgrades the run: the returned result then has
`overall_status = Failed` and `pipeline_error` set to the stage-5 failure
message, in addition to the failure being recorded in its `StageResult`. -/
theorem post_processing_runs_but_downgrades (cfg : PipelineConfig) (w : World)
    (pdf : String) (hinj : w.inject = none) :
    ((getStage (processPaper cfg w pdf).result.stages .reportGeneration).map
        (fun r => r.status) = some .completed →
      getStage (processPaper cfg w pdf).result.stages .postProcessing =
        some (runStage5 w.s5 w.tick
          (joinPath cfg.outputDir (pathStem pdf))).1) ∧
    (∀ m, w.s5.outcome = .error m →
      getStage (processPaper cfg w pdf).result.stages .postProcessing ≠
        none →
      (processPaper cfg w pdf).result.overallStatus = .failed ∧
      (processPaper cfg w pdf).result.pipelineError =
        some ("第五阶段失败: " ++ m)) := by
  simp only [processPaper, tryBody, injAt_none hinj, initResult, failPipeline]
  repeat' split
  all_goals refine ⟨fun hrg => ?_, fun m hm hne => ?_⟩
  all_goals simp only [getStage_addStage, getStage_nil, stageBlock1_stage,
    stageBlock2_stage, stageBlock3_stage, stageBlock4_stage,
    runStage5_stage] at *
  all_goals simp_all [StageResult.success, stageFailMsgZh, runStage5,
    failedResult, completedResult]

/-- Witness for the amended C4 theorem: the run in which only
post-processing fails. -/
theorem post_processing_runs_but_downgrades_witness :
    wPostFail.inject = none ∧
    wPostFail.s5.outcome = .error "重命名失败" ∧
    getStage (processPaper cfgDemo wPostFail "paper.pdf").result.stages
        .postProcessing =
      some (runStage5 wPostFail.s5 wPostFail.tick
        (joinPath cfgDemo.outputDir (pathStem "paper.pdf"))).1 ∧
    (processPaper cfgDemo wPostFail "paper.pdf").result.overallStatus =
      .failed ∧
    (processPaper cfgDemo wPostFail "paper.pdf").result.pipelineError =
      some ("第五阶段失败: " ++ "重命名失败") := by
  have hc := post_processing_runs_but_downgrades cfgDemo wPostFail "paper.pdf"
    rfl
  have hpost := hc.1 rfl
  exact ⟨rfl, rfl, hpost, (hc.2 "重命名失败" rfl (by rw [hpost]; simp)).1,
    (hc.2 "重命名失败" rfl (by rw [hpost]; simp)).2⟩

set_option maxHeartbeats 4000000 in
/-- C8 (confirmed): if a content stage k resolves to Failed, the returned
result records no `StageResult` for any stage after k — in particular
PostProcessing is not attempted — `overall_status = Failed`, and
`pipeline_error` is the "第N阶段失败" message naming the failing stage with
its error message. -/
theorem fail_fast (cfg : PipelineConfig) (w : World) (pdf : String)
    (k : ProcessingStage) (rk : StageResult)
    (hinj : w.inject = none) (hk : stageIndex k ≤ 3) :
    getStage (processPaper cfg w pdf).result.stages k = some rk →
    rk.status = .failed →
    (∀ k', stageIndex k < stageIndex k' →
      getStage (processPaper cfg w pdf).result.stages k' = none) ∧
    getStage (processPaper cfg w pdf).result.stages .postProcessing = none ∧
    (processPaper cfg w pdf).result.overallStatus = .failed ∧
    (processPaper cfg w pdf).result.pipelineError =
      some (stageFailMsgZh k ++ rk.errorMessage.getD "None") := by
  simp only [processPaper, tryBody, injAt_none hinj, initResult, failPipeline]
  repeat' split
  all_goals intro hrk hf
  all_goals refine ⟨fun k' hk' => ?_, ?_, ?_, ?_⟩
  all_goals cases k
  all_goals try cases k'
  all_goals simp_all [getStage_addStage, getStage_nil, stageBlock1_stage,
    stageBlock2_stage, stageBlock3_stage, stageBlock4_stage, runStage5_stage,
    StageResult.success, stageFailMsgZh, stageIndex]
  all_goals try subst_vars
  all_goals simp_all [stageBlock1_stage, stageBlock2_stage, stageBlock3_stage,
    stageBlock4_stage, runStage5_stage, stageIndex, stageFailMsgZh,
    StageResult.success]

/-- Witness for C8: a run whose full-text-OCR collaborator raises. -/
theorem fail_fast_witness :
    wOcrFail.inject = none ∧
    stageIndex .fullOcr ≤ 3 ∧
    getStage (processPaper cfgDemo wOcrFail "paper.pdf").result.stages
      .fullOcr = some (failedResult .fullOcr 5 1 "OCR 服务不可用") ∧
    (failedResult .fullOcr 5 1 "OCR 服务不可用").status = .failed ∧
    ((∀ k', stageIndex .fullOcr < stageIndex k' →
       getStage (processPaper cfgDemo wOcrFail "paper.pdf").result.stages k' =
         none) ∧
     getStage (processPaper cfgDemo wOcrFail "paper.pdf").result.stages
       .postProcessing = none ∧
     (processPaper cfgDemo wOcrFail "paper.pdf").result.overallStatus =
       .failed ∧
     (processPaper cfgDemo wOcrFail "paper.pdf").result.pipelineError =
       some (stageFailMsgZh .fullOcr ++
         ((failedResult .fullOcr 5 1 "OCR 服务不可用").errorMessage.getD
           "None"))) :=
  ⟨rfl, by decide, rfl, rfl,
   fail_fast cfgDemo wOcrFail "paper.pdf" .fullOcr
     (failedResult .fullOcr 5 1 "OCR 服务不可用") rfl (by decide) rfl rfl⟩

/-- C10 (confirmed): the orchestrator never reads
`PipelineConfig.max_retry_attempts` — two configurations differing only in
that field produce identical runs on every input and every environment —
and stage 1's internal timeout-retry loop is hard-coded: it makes at most 3
attempts (and performs no sleep at all, there being no sleep call in the
loop). -/
theorem max_retry_attempts_unused (w : World) (pdf od : String)
    (an : Option String) (tp : List (String × String))
    (cp : Option (List (String × ℚ))) (kif epc : Bool) (n₁ n₂ : ℕ) :
    processPaper ⟨od, an, tp, cp, kif, epc, n₁⟩ w pdf =
      processPaper ⟨od, an, tp, cp, kif, epc, n₂⟩ w pdf ∧
    (∀ att : ℕ → Stage1Attempt, (stage1Loop att 3 0).2.2 ≤ 3) := by
  constructor
  · rfl
  · intro att
    have gen : ∀ fuel i att, (stage1Loop att fuel i).2.2 ≤ fuel := by
      intro fuel
      induction fuel with
      | zero =>
        intro i att
        simp [stage1Loop]
      | succ k ih =>
        intro i att
        rcases ha : att i with _ | m | m <;> simp only [stage1Loop, ha]
        · omega
        · split
          · have := ih (i + 1) att
            simp only []
            omega
          · simp
        · simp
    exact gen 3 0 att

theorem getCompletionGo_fail (op : ℕ → LLMAttempt) (m : ℕ)
    (hop : ∀ i, (op i).isFailure = true) :
    ∀ k r a ds, r ≤ m → m - r < k →
      getCompletionGo op m k r a ds =
        (.raised (llmRaiseMsg (op (a + (m - r)))), a + (m - r) + 1,
         ds ++ (List.range (m - r)).map (fun j => 2 ^ (r + 1 + j))) := by
  intro k
  induction k with
  | zero =>
    intro r a ds hr hk
    omega
  | succ k ih =>
    intro r a ds hr hk
    have step : ∀ e : LLMAttempt, op a = e → e.isFailure = true →
        getCompletionGo op m (k + 1) r a ds =
          (if r + 1 > m then (.raised (llmRaiseMsg e), a + 1, ds)
           else getCompletionGo op m k (r + 1) (a + 1) (ds ++ [2 ^ (r + 1)])) := by
      intro e he hf
      cases e <;> simp only [getCompletionGo, he, if_pos hr] <;>
        simp [LLMAttempt.isFailure] at hf ⊢
    rw [step (op a) rfl (hop a)]
    by_cases hlast : r + 1 > m
    · have hmr : m - r = 0 := by omega
      rw [if_pos hlast]
      simp [hmr]
    · rw [if_neg hlast]
      have hr1 : r + 1 ≤ m := by omega
      have hk1 : m - (r + 1) < k := by omega
      rw [ih (r + 1) (a + 1) (ds ++ [2 ^ (r + 1)]) hr1 hk1]
      have hidx : a + 1 + (m - (r + 1)) = a + (m - r) := by omega
      have hlist : ds ++ [2 ^ (r + 1)] ++
          (List.range (m - (r + 1))).map (fun j => 2 ^ (r + 1 + 1 + j)) =
          ds ++ (List.range (m - r)).map (fun j => 2 ^ (r + 1 + j)) := by
        rw [List.append_assoc]
        congr 1
        have hsucc : m - r = (m - (r + 1)) + 1 := by omega
        rw [hsucc, List.range_succ_eq_map, List.map_cons, List.map_map]
        have hf : ((fun j => (2 : ℕ) ^ (r + 1 + j)) ∘ Nat.succ) =
            (fun j => 2 ^ (r + 1 + 1 + j)) := by
          funext j
          simp only [Function.comp]
          congr 1
          omega
        rw [hf]
        have h0 : r + 1 + 0 = r + 1 := by omega
        rw [h0]
        rfl
      rw [hidx, hlist]

theorem getCompletion_fail (op : ℕ → LLMAttempt) (m : ℕ)
    (hop : ∀ i, (op i).isFailure = true) :
    getCompletion op m =
      (.raised (llmRaiseMsg (op m)), m + 1,
       (List.range m).map (fun j => 2 ^ (j + 1))) := by
  unfold getCompletion
  rw [getCompletionGo_fail op m hop (m + 2) 0 0 [] (by omega) (by omega)]
  simp only [Nat.sub_zero, Nat.zero_add, List.nil_append]
  have hf : (fun j => (2 : ℕ) ^ (1 + j)) = (fun j => 2 ^ (j + 1)) := by
    funext j
    congr 1
    omega
  rw [hf]

theorem sum_range_pow_succ (m : ℕ) :
    ((List.range m).map (fun j => (2 : ℕ) ^ (j + 1))).sum = 2 ^ (m + 1) - 2 := by
  induction m with
  | zero => simp
  | succ n ih =>
    rw [List.range_succ, List.map_append, List.sum_append]
    have h2 : 2 ≤ (2 : ℕ) ^ (n + 1) := by
      have := Nat.one_lt_two_pow_iff.mpr (Nat.succ_ne_zero n)
      omega
    have hp : (2 : ℕ) ^ (n + 2) = 2 ^ (n + 1) + 2 ^ (n + 1) := by ring
    simp [ih]
    omega

theorem sum_Icc_pow (m : ℕ) :
    (∑ k in Finset.Icc 1 m, (2 : ℕ) ^ k) = 2 ^ (m + 1) - 2 := by
  induction m with
  | zero => simp
  | succ n ih =>
    rw [Finset.sum_Icc_succ_top (by omega : 1 ≤ n + 1), ih]
    have h2 : 2 ≤ (2 : ℕ) ^ (n + 1) := by
      have := Nat.one_lt_two_pow_iff.mpr (Nat.succ_ne_zero n)
      omega
    have hp : (2 : ℕ) ^ (n + 2) = 2 ^ (n + 1) + 2 ^ (n + 1) := by ring
    omega

/-- C6 (confirmed): for an operation that always fails with a retryable
error, `get_completion` makes exactly `max_retries + 1` attempts and then
raises; the sleep before the k-th retry (1-indexed) is `2^k` seconds (the
code's hard-coded base delay is one second), so the total sleep equals —
and in particular is at least — `2^1 + 2^2 + ... + 2^max_retries`. -/
theorem retry_exhaustion (op : ℕ → LLMAttempt) (m : ℕ)
    (hop : ∀ i, (op i).isFailure = true) :
    (getCompletion op m).2.1 = m + 1 ∧
    (∃ msg, (getCompletion op m).1 = .raised msg) ∧
    (getCompletion op m).2.2 = (List.range m).map (fun j => 2 ^ (j + 1)) ∧
    ((getCompletion op m).2.2).sum ≥ ∑ k in Finset.Icc 1 m, 2 ^ k := by
  rw [getCompletion_fail op m hop]
  refine ⟨rfl, ⟨_, rfl⟩, rfl, ?_⟩
  rw [sum_range_pow_succ, sum_Icc_pow]

/-- Witness for C6: an operation whose every attempt times out, with
`max_retries = 2`: three attempts, sleeps of 2 then 4 seconds. -/
theorem retry_exhaustion_witness :
    (∀ i : ℕ, ((fun _ : ℕ => LLMAttempt.timeoutErr) i).isFailure = true) ∧
    ((getCompletion (fun _ => .timeoutErr) 2).2.1 = 2 + 1 ∧
     (∃ msg, (getCompletion (fun _ => .timeoutErr) 2).1 = .raised msg) ∧
     (getCompletion (fun _ => .timeoutErr) 2).2.2 =
       (List.range 2).map (fun j => 2 ^ (j + 1)) ∧
     ((getCompletion (fun _ => .timeoutErr) 2).2.2).sum ≥
       ∑ k in Finset.Icc 1 2, 2 ^ k) :=
  ⟨fun _ => rfl, retry_exhaustion (fun _ => .timeoutErr) 2 (fun _ => rfl)⟩

/-- C7 (counterexample): an error outside the retryable classes — the
catch-all `except Exception` class, e.g. a missing input file — with
`max_retries = 1` is *not* surfaced immediately: the code makes a second
attempt and sleeps 2 seconds of backoff first. -/
theorem fatal_not_immediate_cex :
    (getCompletion (fun _ => .otherErr "missing input file") 1).2.1 = 2 ∧
    (2 : ℕ) ≠ 1 ∧
    (getCompletion (fun _ => .otherErr "missing input file") 1).2.2 = [2] ∧
    (getCompletion (fun _ => .otherErr "missing input file") 1).1 =
      .raised "未知错误: missing input file" :=
  ⟨rfl, by decide, rfl, rfl⟩

/-- C7 (amended): `get_completion` has no fatal class at all — its final
`except Exception` clause retries every error, so an operation that always
fails with a non-retryable error (per the spec's taxonomy) is retried like
any other: `max_retries + 1` attempts with the full exponential backoff
schedule before an aggregate "未知错误" exception is raised. -/
theorem catch_all_retries_every_error (msg : String) (m : ℕ) :
    (getCompletion (fun _ => .otherErr msg) m).2.1 = m + 1 ∧
    (getCompletion (fun _ => .otherErr msg) m).1 =
      .raised ("未知错误: " ++ msg) ∧
    (getCompletion (fun _ => .otherErr msg) m).2.2 =
      (List.range m).map (fun j => 2 ^ (j + 1)) := by
  rw [getCompletion_fail (fun _ => .otherErr msg) m (fun _ => rfl)]
  exact ⟨rfl, rfl, rfl⟩

/-- C9 (confirmed): `_check_stage_completed` decides each of the four
content stages purely by existence of that stage's well-known files — the
metadata JSON and first-pages markdown for metadata extraction, `complete.md`
for full OCR, the structure JSON and attribute tree for structure parsing,
and any of the three accepted report names for report generation — with no
content validation (the file-system model carries no contents at all). -/
theorem checkpoint_is_existence_only (fs : FS) (dir name : String) :
    (checkStageCompleted fs .metadataExtraction dir name = true ↔
      joinPath dir (name ++ "_metadata.json") ∈ fs ∧
      joinPath dir (name ++ "_first_three_pages.md") ∈ fs) ∧
    (checkStageCompleted fs .fullOcr dir name = true ↔
      joinPath dir "complete.md" ∈ fs) ∧
    (checkStageCompleted fs .structureParsing dir name = true ↔
      joinPath dir "paper_structure.json" ∈ fs ∧
      joinPath dir (name ++ "_attribute_tree.json") ∈ fs) ∧
    (checkStageCompleted fs .reportGeneration dir name = true ↔
      joinPath dir "final_report.md" ∈ fs ∨ joinPath dir "report.md" ∈ fs ∨
      joinPath dir (name ++ "_report.md") ∈ fs) := by
  simp [checkStageCompleted, fsExists, reportCandidates, List.contains]

/-- C3 (counterexample): while MetadataExtraction is current with stage-local
progress 0, the code reports overall progress 0.30 (the weight of FullOcr,
whose enum string "full_ocr" sorts before "metadata_extraction"), whereas
the claimed formula — prefix weights in pipeline order — yields 0. -/
theorem progress_formula_cex :
    overallProgress .metadataExtraction 0 = 0.30 ∧
    specOverallProgress .metadataExtraction 0 = 0 ∧
    (0.30 : ℚ) ≠ 0 := by
  obtain ⟨e1, e2, e3, e4, e5⟩ := lexBeforeWeight_eval
  refine ⟨?_, ?_, by norm_num⟩
  · rw [overallProgress_closed, e1]
    norm_num [stageWeights]
  · simp [specOverallProgress, allStages, stageIndex, stageWeights]

/-- C3 (amended): the overall progress reported while a stage is current
equals the sum of the weights of the stages whose enum string value sorts
before the current stage's value in Python string order — not the pipeline
order — plus `weight(stage) * p` (the cap at 1.0 never binds for
`p ∈ [0,1]`). -/
theorem progress_uses_string_order (s : ProcessingStage) (p : ℚ)
    (h0 : 0 ≤ p) (h1 : p ≤ 1) :
    overallProgress s p = lexBeforeWeight s + stageWeights s * p := by
  rw [overallProgress_closed]
  refine min_eq_left ?_
  obtain ⟨e1, e2, e3, e4, e5⟩ := lexBeforeWeight_eval
  cases s <;> rw [stageWeights] <;> first
    | (rw [e1] <;> linarith)
    | (rw [e2] <;> linarith)
    | (rw [e3] <;> linarith)
    | (rw [e4] <;> linarith)
    | (rw [e5] <;> linarith)

/-- Witness for the amended C3 theorem at stage MetadataExtraction and
stage-local progress 1/2. -/
theorem progress_uses_string_order_witness :
    (0 : ℚ) ≤ 1/2 ∧ (1/2 : ℚ) ≤ 1 ∧
    overallProgress .metadataExtraction (1/2) =
      lexBeforeWeight .metadataExtraction +
        stageWeights .metadataExtraction * (1/2) :=
  ⟨by norm_num, by norm_num,
   progress_uses_string_order .metadataExtraction (1/2) (by norm_num) (by norm_num)⟩

theorem notify_bounds (s : ProcessingStage) (p : ℚ) (m : String) (h0 : 0 ≤ p) :
    0 ≤ (notify s p m).overallProgress ∧ (notify s p m).overallProgress ≤ 1 := by
  obtain ⟨e1, e2, e3, e4, e5⟩ := lexBeforeWeight_eval
  constructor
  · show (0 : ℚ) ≤ overallProgress s p
    rw [overallProgress_closed]
    refine le_min ?_ (by norm_num)
    have hw : 0 ≤ stageWeights s * p := by
      refine mul_nonneg ?_ h0
      cases s <;> rw [stageWeights] <;> norm_num
    have hl : 0 ≤ lexBeforeWeight s := by
      cases s <;> first
        | (rw [e1] <;> norm_num)
        | (rw [e2] <;> norm_num)
        | (rw [e3] <;> norm_num)
        | (rw [e4] <;> norm_num)
        | (rw [e5] <;> norm_num)
    linarith
  · show overallProgress s p ≤ 1
    rw [overallProgress_closed]
    exact min_le_right _ _

theorem emOk_nil : emOk [] := by
  intro e he
  simp at he

theorem emOk_append {l1 l2 : List ProgressInfo} (h1 : emOk l1) (h2 : emOk l2) :
    emOk (l1 ++ l2) := by
  intro e he
  rcases List.mem_append.mp he with h | h
  · exact h1 e h
  · exact h2 e h

theorem emOk_take {l : List ProgressInfo} (h : emOk l) (n : ℕ) :
    emOk (l.take n) := by
  intro e he
  exact h e (List.mem_of_mem_take he)

theorem emOk_stage1Loop (att : ℕ → Stage1Attempt) :
    ∀ fuel i, emOk (stage1Loop att fuel i).1 := by
  intro fuel
  induction fuel with
  | zero =>
    intro i e he
    simp [stage1Loop] at he
  | succ n ih =>
    intro i e he
    rcases hatt : att i with _ | m | m <;>
      simp only [stage1Loop, hatt] at he
    · simp at he
    · by_cases hc : i + 1 < 3
      · rw [if_pos hc] at he
        simp only [List.mem_cons] at he
        rcases he with rfl | he2
        · exact notify_bounds _ _ _ (by norm_num)
        · exact ih (i + 1) e he2
      · rw [if_neg hc] at he
        simp at he
    · simp at he

theorem emOk_runStage1 (w1 : Stage1W) (t : ℚ) (p d : String) :
    emOk (runStage1 w1 t p d).2.1 := by
  intro e he
  rcases hm : (stage1Loop w1.att 3 0).2.1 with _ | m
  · simp only [runStage1, hm, List.mem_append, List.mem_cons,
      List.not_mem_nil, or_false] at he
    rcases he with ((rfl | rfl) | he2) | rfl
    · exact notify_bounds _ _ _ (by norm_num)
    · exact notify_bounds _ _ _ (by norm_num)
    · exact emOk_stage1Loop w1.att 3 0 e he2
    · exact notify_bounds _ _ _ (by norm_num)
  · simp only [runStage1, hm, List.mem_append, List.mem_cons,
      List.not_mem_nil, or_false] at he
    rcases he with (rfl | rfl) | he2
    · exact notify_bounds _ _ _ (by norm_num)
    · exact notify_bounds _ _ _ (by norm_num)
    · exact emOk_stage1Loop w1.att 3 0 e he2

theorem emOk_runStage2 (w2 : StageW Unit) (t : ℚ) (d : String) :
    emOk (runStage2 w2 t d).2.1 := by
  intro e he
  rcases hm : w2.outcome with m | u <;>
    simp only [runStage2, hm] at he
  · simp only [List.mem_cons, List.not_mem_nil, or_false] at he
    rcases he with rfl | rfl <;> exact notify_bounds _ _ _ (by norm_num)
  · split at he <;>
      simp only [List.mem_append, List.mem_cons, List.not_mem_nil, or_false] at he
    · rcases he with (rfl | rfl) | rfl <;> exact notify_bounds _ _ _ (by norm_num)
    · rcases he with rfl | rfl <;> exact notify_bounds _ _ _ (by norm_num)

theorem emOk_stage3Pre : emOk stage3PreEmissions := by
  intro e he
  simp only [stage3PreEmissions, List.mem_cons, List.not_mem_nil, or_false] at he
  rcases he with rfl | rfl | rfl | rfl <;> exact notify_bounds _ _ _ (by norm_num)

theorem emOk_runStage3 (w3 : StageW Unit) (k : ℕ) (t : ℚ) (c d : String) :
    emOk (runStage3 w3 k t c d).2.1 := by
  intro e he
  rcases hm : w3.outcome with m | u <;>
    simp only [runStage3, hm] at he
  · exact emOk_take emOk_stage3Pre _ e he
  · simp only [List.mem_append, List.mem_cons, List.not_mem_nil, or_false] at he
    rcases he with h | rfl
    · exact emOk_stage3Pre e h
    · exact notify_bounds _ _ _ (by norm_num)

theorem emOk_runStage4 (w4 : StageW String) (t : ℚ) (fs : FS) (d : String) :
    emOk (runStage4 w4 t fs d).2.1 := by
  intro e he
  simp only [runStage4] at he
  split at he
  · simp only [List.mem_cons, List.not_mem_nil, or_false] at he
    rcases he with rfl | rfl <;> exact notify_bounds _ _ _ (by norm_num)
  · rcases hm : w4.outcome with m | out <;> rw [hm] at he <;>
      simp only [List.mem_append, List.mem_cons, List.not_mem_nil, or_false] at he
    · rcases he with (rfl | rfl) | rfl <;> exact notify_bounds _ _ _ (by norm_num)
    · rcases he with (rfl | rfl) | rfl | rfl <;>
        exact notify_bounds _ _ _ (by norm_num)

theorem emOk_runStage5 (w5 : StageW Unit) (t : ℚ) (d : String) :
    emOk (runStage5 w5 t d).2.1 := by
  intro e he
  rcases hm : w5.outcome with m | u <;>
    simp only [runStage5, hm] at he <;>
    simp only [List.mem_append, List.mem_cons, List.not_mem_nil, or_false] at he
  · rcases he with rfl | rfl <;> exact notify_bounds _ _ _ (by norm_num)
  · rcases he with (rfl | rfl) | rfl <;> exact notify_bounds _ _ _ (by norm_num)

theorem emOk_stageBlock1 (w : World) (p d n : String) :
    emOk (stageBlock1 w p d n).2.1 := by
  unfold stageBlock1
  split
  · intro e he
    simp only [List.mem_cons, List.not_mem_nil, or_false] at he
    rcases he with rfl
    exact notify_bounds _ _ _ (by norm_num)
  · exact emOk_runStage1 _ _ _ _

theorem emOk_stageBlock2 (w : World) (fs : FS) (d n : String) :
    emOk (stageBlock2 w fs d n).2.1 := by
  unfold stageBlock2
  split
  · intro e he
    simp only [List.mem_cons, List.not_mem_nil, or_false] at he
    rcases he with rfl
    exact notify_bounds _ _ _ (by norm_num)
  · exact emOk_runStage2 _ _ _

theorem emOk_stageBlock3 (w : World) (fs : FS) (c d n : String) :
    emOk (stageBlock3 w fs c d n).2.1 := by
  unfold stageBlock3
  split
  · intro e he
    simp only [List.mem_cons, List.not_mem_nil, or_false] at he
    rcases he with rfl
    exact notify_bounds _ _ _ (by norm_num)
  · exact emOk_runStage3 _ _ _ _ _

theorem emOk_stageBlock4 (w : World) (fs : FS) (d n : String) :
    emOk (stageBlock4 w fs d n).2.1 := by
  unfold stageBlock4
  split
  · intro e he
    simp only [List.mem_cons, List.not_mem_nil, or_false] at he
    rcases he with rfl
    exact notify_bounds _ _ _ (by norm_num)
  · exact emOk_runStage4 _ _ _ _

set_option maxHeartbeats 2000000 in
theorem emOk_tryBody (w : World) (p n d : String) (r0 : PipelineResult) :
    emOk (tryBody w p n d r0).em := by
  simp only [tryBody]
  repeat' split
  all_goals
    first
      | exact emOk_nil
      | (repeat'
          first
            | exact emOk_stageBlock1 w p d n
            | exact emOk_stageBlock2 w _ d n
            | exact emOk_stageBlock3 w _ _ d n
            | exact emOk_stageBlock4 w _ d n
            | exact emOk_runStage5 w.s5 w.tick d
            | apply emOk_append)

theorem getLast_append_some {α : Type} (l1 l2 : List α) (a : α)
    (h : l2.getLast? = some a) : (l1 ++ l2).getLast? = some a := by
  have hne : l2 ≠ [] := by
    rintro rfl
    simp at h
  rw [List.getLast?_append_of_ne_nil l1 hne, h]

theorem runStage5_success_em (w5 : StageW Unit) (t : ℚ) (d : String)
    (h : (runStage5 w5 t d).1.success = true) :
    (runStage5 w5 t d).2.1 =
      [notify .postProcessing 0 "开始后处理...",
       notify .postProcessing 0.3 "清理中间文件...",
       notify .postProcessing 1 "后处理完成"] := by
  rcases hm : w5.outcome with m | u
  · exfalso
    simp [runStage5, hm, failedResult, StageResult.success] at h
  · simp [runStage5, hm, completedResult]

set_option maxHeartbeats 2000000 in
theorem tryBody_completed_last (w : World) (p n d : String)
    (r0 : PipelineResult) :
    (tryBody w p n d r0).res.overallStatus = .completed →
      (tryBody w p n d r0).em.getLast? =
        some (notify .postProcessing 1 "后处理完成") := by
  simp only [tryBody]
  repeat' split
  all_goals intro h
  all_goals
    first
      | (refine getLast_append_some _ _ _ ?_;
         rw [runStage5_success_em w.s5 w.tick d (by assumption)]; rfl)
      | (exfalso; simp [exceptBranch, failPipeline] at h)

theorem getLast_map_some {α β : Type} (f : α → β) :
    ∀ (l : List α) (a : α), l.getLast? = some a →
      (l.map f).getLast? = some (f a) := by
  intro l
  induction l with
  | nil =>
    intro a h
    simp at h
  | cons x xs ih =>
    intro a h
    rcases xs with _ | ⟨y, ys⟩
    · simp only [List.getLast?_singleton] at h
      cases h
      simp
    · rw [List.getLast?_cons_cons] at h
      rw [List.map_cons, List.map_cons, List.getLast?_cons_cons, ← List.map_cons]
      exact ih a h

/-- C2 (amended): the emitted overall-progress sequence is not in general
non-decreasing (see the counterexample), but every value passed to the
callback lies in `[0,1]`, and on a successful run the final value emitted is
exactly 0.5 — the post-processing stage's capped aggregate under the
string-ordered prefix — rather than 1.0. -/
theorem final_progress_on_success (cfg : PipelineConfig) (w : World)
    (pdf : String)
    (h : (processPaper cfg w pdf).result.overallStatus = .completed) :
    ((processPaper cfg w pdf).trace.map
        (fun e => e.overallProgress)).getLast? = some (0.5 : ℚ) ∧
    ∀ e ∈ (processPaper cfg w pdf).trace,
      0 ≤ e.overallProgress ∧ e.overallProgress ≤ 1 := by
  obtain ⟨e1, e2, e3, e4, e5⟩ := lexBeforeWeight_eval
  constructor
  · have hl := tryBody_completed_last w pdf (pathStem pdf)
      (joinPath cfg.outputDir (pathStem pdf))
      { inputPdf := pdf
        outputDir := joinPath cfg.outputDir (pathStem pdf)
        pdfName := pathStem pdf
        overallStatus := .inProgress
        startTime := w.t0 } h
    have hm := getLast_map_some (fun e => e.overallProgress) _ _ hl
    refine Eq.trans hm ?_
    show some (overallProgress .postProcessing 1) = some (0.5 : ℚ)
    rw [overallProgress_closed, e5]
    norm_num [stageWeights]
  · exact emOk_tryBody w pdf (pathStem pdf) (joinPath cfg.outputDir (pathStem pdf))
      { inputPdf := pdf
        outputDir := joinPath cfg.outputDir (pathStem pdf)
        pdfName := pathStem pdf
        overallStatus := .inProgress
        startTime := w.t0 }

/-- Witness for the amended C2 theorem: the canonical successful run. -/
theorem final_progress_on_success_witness :
    (processPaper cfgDemo wSuccess "paper.pdf").result.overallStatus =
        .completed ∧
    (((processPaper cfgDemo wSuccess "paper.pdf").trace.map
        (fun e => e.overallProgress)).getLast? = some (0.5 : ℚ) ∧
     ∀ e ∈ (processPaper cfgDemo wSuccess "paper.pdf").trace,
       0 ≤ e.overallProgress ∧ e.overallProgress ≤ 1) :=
  ⟨rfl, final_progress_on_success cfgDemo wSuccess "paper.pdf" rfl⟩

theorem wSuccess_trace_eval :
    (processPaper cfgDemo wSuccess "paper.pdf").trace.map
        (fun e => e.overallProgress) =
      [overallProgress .metadataExtraction 0, overallProgress .metadataExtraction 0.3,
       overallProgress .metadataExtraction 1,
       overallProgress .fullOcr 0, overallProgress .fullOcr 0.2,
       overallProgress .fullOcr 1,
       overallProgress .structureParsing 0, overallProgress .structureParsing 0.2,
       overallProgress .structureParsing 0.5, overallProgress .structureParsing 0.7,
       overallProgress .structureParsing 1,
       overallProgress .reportGeneration 0, overallProgress .reportGeneration 0.2,
       overallProgress .reportGeneration 0.5, overallProgress .reportGeneration 1,
       overallProgress .postProcessing 0, overallProgress .postProcessing 0.3,
       overallProgress .postProcessing 1] := rfl

/-- C2 (counterexample): on the canonical fully successful run the emitted
overall-progress sequence reaches 0.45 at the end of stage 1, then drops to
0 when stage 2 begins (0.45 appears at index 2 and 0 at index 3), so it is
not non-decreasing; and the final emitted value is 0.5, not 1.0, even though
the run completed. -/
theorem monotone_progress_cex :
    (processPaper cfgDemo wSuccess "paper.pdf").result.overallStatus =
        .completed ∧
    ((processPaper cfgDemo wSuccess "paper.pdf").trace.map
        (fun e => e.overallProgress))[2]? = some (0.45 : ℚ) ∧
    ((processPaper cfgDemo wSuccess "paper.pdf").trace.map
        (fun e => e.overallProgress))[3]? = some (0 : ℚ) ∧
    ¬ ((0.45 : ℚ) ≤ 0) ∧
    ((processPaper cfgDemo wSuccess "paper.pdf").trace.map
        (fun e => e.overallProgress)).getLast? = some (0.5 : ℚ) ∧
    (0.5 : ℚ) ≠ 1 := by
  obtain ⟨e1, e2, e3, e4, e5⟩ := lexBeforeWeight_eval
  have h2 : ((processPaper cfgDemo wSuccess "paper.pdf").trace.map
      (fun e => e.overallProgress))[2]? =
      some (overallProgress .metadataExtraction 1) := rfl
  have h3 : ((processPaper cfgDemo wSuccess "paper.pdf").trace.map
      (fun e => e.overallProgress))[3]? =
      some (overallProgress .fullOcr 0) := rfl
  have hl : ((processPaper cfgDemo wSuccess "paper.pdf").trace.map
      (fun e => e.overallProgress)).getLast? =
      some (overallProgress .postProcessing 1) := rfl
  refine ⟨rfl, ?_, ?_, by norm_num, ?_, by norm_num⟩
  · rw [h2, overallProgress_closed, e1]
    norm_num [stageWeights]
  · rw [h3, overallProgress_closed, e2]
    norm_num [stageWeights]
  · rw [hl, overallProgress_closed, e5]
    norm_num [stageWeights]

end Pipeline
